import Mathlib

/-!
Verification of the latency-measurement core of `thebracket/wasm_latency`.

The development shallowly embeds the three Rust source files:
* `src/shared_data/src/lib.rs` — the wire codec (`LatencyTest::encode` /
  `LatencyTest::decode`), the latency calculator (`calculate_latency`),
  the error enum `LatencyTestError` and the clock helper `unix_now_ms`;
* `src/bandwidth_server/src/main.rs` — the per-frame handler
  `handle_socket_message` and the `tokio::select!` dispatch loop of
  `handle_socket`;
* `src/wasm_client/src/lib.rs` — the `Conduit` connection object, its
  `connect` precondition chain and its `onmessage` callback.

Machine integers (`u16`, `u128`) are embedded as `Nat` with explicit range
facts where they matter; byte buffers are `List Nat`; Rust slice indexing
`bytes[a..b]` (which aborts the thread when out of bounds) is embedded as an
`Option`-valued operation whose `none` case is propagated as an explicit
`panicked` outcome; `u128` subtraction is embedded as checked subtraction,
whose `none` case models the debug-assertions underflow abort.  The `f64`
arithmetic of `calculate_latency` is embedded over `ℚ`; it is exact for every
value below `2^53`, in particular for all the concrete vectors used here.
-/

namespace WasmLatency

/-- Rust `pub const MAGIC_NUMBER: u16 = 0xBE47`. -/
def MAGIC_NUMBER : Nat := 0xBE47

/-- Rust `const SIZE_U16: usize = size_of::<u16>()`. -/
def SIZE_U16 : Nat := 2

/-- Rust `const HEADER_SIZE: usize = SIZE_U16 * 2`. -/
def HEADER_SIZE : Nat := SIZE_U16 * 2

/-- Rust `const SIZE_U128: usize = size_of::<u128>()`. -/
def SIZE_U128 : Nat := 16

/-- The `LatencyTest` enum of `shared_data`: five handshake message shapes,
each carrying a `u16` magic and zero or more `u128` millisecond timestamps. -/
inductive LatencyTest where
  | InitialRequest (magic : Nat)
  | FirstReply (magic server_time : Nat)
  | FirstResponse (magic server_time client_time : Nat)
  | SecondReply (magic server_time client_time server_ack_time : Nat)
  | Final (magic server_time client_time server_ack_time client_ack_time : Nat)
deriving DecidableEq

/-- The machine-integer ranges guaranteed by the Rust field types:
`magic : u16`, every timestamp `: u128`. -/
def LatencyTest.wf : LatencyTest → Prop
  | .InitialRequest m => m < 2 ^ 16
  | .FirstReply m a => m < 2 ^ 16 ∧ a < 2 ^ 128
  | .FirstResponse m a b => m < 2 ^ 16 ∧ a < 2 ^ 128 ∧ b < 2 ^ 128
  | .SecondReply m a b c => m < 2 ^ 16 ∧ a < 2 ^ 128 ∧ b < 2 ^ 128 ∧ c < 2 ^ 128
  | .Final m a b c d =>
      m < 2 ^ 16 ∧ a < 2 ^ 128 ∧ b < 2 ^ 128 ∧ c < 2 ^ 128 ∧ d < 2 ^ 128

/-- The `magic` field common to all five variants. -/
def LatencyTest.magic : LatencyTest → Nat
  | .InitialRequest m => m
  | .FirstReply m _ => m
  | .FirstResponse m _ _ => m
  | .SecondReply m _ _ _ => m
  | .Final m _ _ _ _ => m

/-- Rust `n.to_be_bytes()` for a `k`-byte unsigned integer: the big-endian
byte string of `n`, most significant byte first.  Faithful whenever
`n < 256 ^ k`, which the machine-integer types guarantee at every call site. -/
def natToBytesBE : Nat → Nat → List Nat
  | 0, _ => []
  | k + 1, n => natToBytesBE k (n / 256) ++ [n % 256]

/-- Rust `uN::from_be_bytes`: read a big-endian byte string back into a
number. -/
def fromBeBytes (l : List Nat) : Nat :=
  l.foldl (fun acc b => acc * 256 + b) 0

/-- `LatencyTest::encode` (shared_data/src/lib.rs:78-130): magic, then the
opcode `1..=5`, then each timestamp in declaration order, all big-endian. -/
def LatencyTest.encode : LatencyTest → List Nat
  | .InitialRequest magic =>
      natToBytesBE SIZE_U16 magic ++ natToBytesBE SIZE_U16 1
  | .FirstReply magic server_time =>
      natToBytesBE SIZE_U16 magic ++ natToBytesBE SIZE_U16 2 ++
        natToBytesBE SIZE_U128 server_time
  | .FirstResponse magic server_time client_time =>
      natToBytesBE SIZE_U16 magic ++ natToBytesBE SIZE_U16 3 ++
        natToBytesBE SIZE_U128 server_time ++ natToBytesBE SIZE_U128 client_time
  | .SecondReply magic server_time client_time server_ack_time =>
      natToBytesBE SIZE_U16 magic ++ natToBytesBE SIZE_U16 4 ++
        natToBytesBE SIZE_U128 server_time ++ natToBytesBE SIZE_U128 client_time ++
        natToBytesBE SIZE_U128 server_ack_time
  | .Final magic server_time client_time server_ack_time client_ack_time =>
      natToBytesBE SIZE_U16 magic ++ natToBytesBE SIZE_U16 5 ++
        natToBytesBE SIZE_U128 server_time ++ natToBytesBE SIZE_U128 client_time ++
        natToBytesBE SIZE_U128 server_ack_time ++ natToBytesBE SIZE_U128 client_ack_time

/-- The `LatencyTestError` enum (shared_data/src/lib.rs:241-249).  Note the
source has no `Truncated` variant: only `Read`, `InvalidMagic`, `BadRequest`. -/
inductive LatencyTestError where
  | Read
  | InvalidMagic
  | BadRequest
deriving DecidableEq

/-- The possible outcomes of running `decode`: a decoded message, an `Err`
value, or a thread abort (Rust slice indexing `bytes[a..b]` on an
out-of-range bound). -/
inductive DecodeOutcome where
  | ok (m : LatencyTest)
  | err (e : LatencyTestError)
  | panicked
deriving DecidableEq

/-- Rust slice indexing `&bytes[a..b]`: the sub-slice when the range is in
bounds, `none` (an index-out-of-range abort) otherwise. -/
def rustSlice (bytes : List Nat) (a b : Nat) : Option (List Nat) :=
  if a ≤ b ∧ b ≤ bytes.length then some ((bytes.drop a).take (b - a)) else none

/-- Rust `<&[u8] as TryInto<[u8; n]>>::try_into`: succeeds exactly when the
slice already has length `n`. -/
def tryIntoArray (l : List Nat) (n : Nat) : Option (List Nat) :=
  if l.length = n then some l else none

/-- Result of one `uN::from_be_bytes(bytes[a..b].try_into()...)` step of
`decode`: the value, the `try_into` failure mapped to `LatencyTestError::Read`
by the source's `map_err`, or the slice-indexing abort. -/
inductive ReadResult where
  | ok (value : Nat)
  | readErr
  | panicked
deriving DecidableEq

/-- One field read of `decode`: slice `bytes[a..b]`, `try_into` a `b - a` byte
array, convert from big-endian. -/
def readBeBytes (bytes : List Nat) (a b : Nat) : ReadResult :=
  match rustSlice bytes a b with
  | none => .panicked
  | some s =>
    match tryIntoArray s (b - a) with
    | none => .readErr
    | some arr => .ok (fromBeBytes arr)

/-- The `?` operator applied to a field read: a `try_into` failure returns
`Err(LatencyTestError::Read)`, an abort propagates, a value continues. -/
def bindRead (r : ReadResult) (f : Nat → DecodeOutcome) : DecodeOutcome :=
  match r with
  | .panicked => .panicked
  | .readErr => .err .Read
  | .ok n => f n

/-- `LatencyTest::decode` (shared_data/src/lib.rs:132-220): read the magic
from `bytes[0..2]` and reject a mismatch with `InvalidMagic`; read the opcode
from `bytes[2..4]`; dispatch on the opcode, reading `SIZE_U128`-byte
timestamp fields at the source's fixed offsets; any other opcode is
`BadRequest`.  The source's `match req` over integer literals is rendered as
the equivalent chain of equality tests. -/
def LatencyTest.decode (bytes : List Nat) : DecodeOutcome :=
  bindRead (readBeBytes bytes 0 SIZE_U16) fun magic =>
  if magic ≠ MAGIC_NUMBER then .err .InvalidMagic else
  bindRead (readBeBytes bytes SIZE_U16 HEADER_SIZE) fun req =>
  if req = 1 then .ok (.InitialRequest magic)
  else if req = 2 then
    bindRead (readBeBytes bytes HEADER_SIZE (HEADER_SIZE + SIZE_U128)) fun server_time =>
    .ok (.FirstReply magic server_time)
  else if req = 3 then
    bindRead (readBeBytes bytes HEADER_SIZE (HEADER_SIZE + SIZE_U128)) fun server_time =>
    bindRead (readBeBytes bytes (HEADER_SIZE + SIZE_U128) (HEADER_SIZE + SIZE_U128 * 2)) fun client_time =>
    .ok (.FirstResponse magic server_time client_time)
  else if req = 4 then
    bindRead (readBeBytes bytes HEADER_SIZE (HEADER_SIZE + SIZE_U128)) fun server_time =>
    bindRead (readBeBytes bytes (HEADER_SIZE + SIZE_U128) (HEADER_SIZE + SIZE_U128 * 2)) fun client_time =>
    bindRead (readBeBytes bytes (HEADER_SIZE + SIZE_U128 * 2) (HEADER_SIZE + SIZE_U128 * 3)) fun server_ack_time =>
    .ok (.SecondReply magic server_time client_time server_ack_time)
  else if req = 5 then
    bindRead (readBeBytes bytes HEADER_SIZE (HEADER_SIZE + SIZE_U128)) fun server_time =>
    bindRead (readBeBytes bytes (HEADER_SIZE + SIZE_U128) (HEADER_SIZE + SIZE_U128 * 2)) fun client_time =>
    bindRead (readBeBytes bytes (HEADER_SIZE + SIZE_U128 * 2) (HEADER_SIZE + SIZE_U128 * 3)) fun server_ack_time =>
    bindRead (readBeBytes bytes (HEADER_SIZE + SIZE_U128 * 3) (HEADER_SIZE + SIZE_U128 * 4)) fun client_ack_time =>
    .ok (.Final magic server_time client_time server_ack_time client_ack_time)
  else .err .BadRequest

/-- Rust `u128` subtraction under debug assertions: the difference when it
does not underflow, `none` (an "attempt to subtract with overflow" abort)
otherwise. -/
def checkedSub (a b : Nat) : Option Nat :=
  if b ≤ a then some (a - b) else none

/-- `LatencyTest::calculate_latency` (shared_data/src/lib.rs:222-238).
`f64` values and arithmetic are embedded over `ℚ` (exact below `2^53`); the
source's `0.5` literal is `(0.5 : ℚ)`; the two `u128` subtractions are
checked, `none` modelling the underflow abort.  Every non-`Final` variant
takes the `_ => (0., 0., 0.)` arm. -/
def LatencyTest.calculate_latency : LatencyTest → Option (ℚ × ℚ × ℚ)
  | .Final _ server_time client_time server_ack_time client_ack_time =>
    match checkedSub server_ack_time server_time with
    | none => none
    | some s =>
      match checkedSub client_ack_time client_time with
      | none => none
      | some c =>
        let server_latency : ℚ := (s : ℚ)
        let client_latency : ℚ := (c : ℚ)
        let latency : ℚ := server_latency - client_latency * (0.5 : ℚ)
        some (latency, server_latency, client_latency)
  | _ => some (0, 0, 0)

/-- `unix_now_ms` (shared_data/src/lib.rs:24-41 and wasm_client/src/lib.rs:69-75,
both variants are textually the same `match`): the host clock's
`duration_since(UNIX_EPOCH)` result is the explicit argument; `Ok(t)` yields
`t.as_millis()`, `Err(_)` (a pre-epoch clock) yields `0`. -/
def unix_now_ms (duration_since_epoch : Except Unit Nat) : Nat :=
  match duration_since_epoch with
  | .ok t => t
  | .error _ => 0

/-- Outcome of the server's per-frame handler. -/
inductive HandlerOutcome where
  | sent (frame : List Nat)
  | ignored
  | panicked
deriving DecidableEq

/-- `handle_socket_message` (bandwidth_server/src/main.rs:170-199).
`now` stands for `unix_now_ms()` at the reply-building instant; `txOpen`
models whether `tx.send(..).await` succeeds (it fails when the channel is
closed, and the source calls `.unwrap()` on it).  The source's
`LatencyTest::decode(&bytes).unwrap()` aborts on any `Err`, and its
`assert_eq!(magic, MAGIC_NUMBER)` aborts on mismatch. -/
def handle_socket_message (bytes : List Nat) (now : Nat) (txOpen : Bool) :
    HandlerOutcome :=
  match LatencyTest.decode bytes with
  | .panicked => .panicked
  | .err _ => .panicked
  | .ok m =>
    match m with
    | .InitialRequest magic =>
      if magic = MAGIC_NUMBER then
        let reply := LatencyTest.FirstReply MAGIC_NUMBER now
        if txOpen then .sent reply.encode else .panicked
      else .panicked
    | .FirstResponse magic server_time client_time =>
      if magic = MAGIC_NUMBER then
        let reply := LatencyTest.SecondReply magic server_time client_time now
        if txOpen then .sent reply.encode else .panicked
      else .panicked
    | _ => .ignored

/-- Outcome of the client's `onmessage` callback. -/
inductive ClientMsgOutcome where
  | sent (frame : List Nat)
  | reported (triple : ℚ × ℚ × ℚ)
  | logged
  | panicked
deriving DecidableEq

/-- The body of the `onmessage` closure registered by `Conduit::connect`
(wasm_client/src/lib.rs:156-193), for a binary frame `raw`.  `now` stands for
`unix_now_ms()`; `sendOk` models whether `socket.send_with_u8_array` succeeds
(the source calls `.unwrap()` on it).  `LatencyTest::decode(&raw).unwrap()`
aborts on any `Err`; a decoded `FirstReply` is answered with a
`FirstResponse`; a decoded `SecondReply` is completed to `Final` and run
through `calculate_latency`; anything else is only logged. -/
def conduit_on_message (raw : List Nat) (now : Nat) (sendOk : Bool) :
    ClientMsgOutcome :=
  match LatencyTest.decode raw with
  | .panicked => .panicked
  | .err _ => .panicked
  | .ok m =>
    match m with
    | .FirstReply magic server_time =>
      if magic = MAGIC_NUMBER then
        let reply := LatencyTest.FirstResponse MAGIC_NUMBER server_time now
        if sendOk then .sent reply.encode else .panicked
      else .panicked
    | .SecondReply magic server_time client_time server_ack_time =>
      if magic = MAGIC_NUMBER then
        match (LatencyTest.Final MAGIC_NUMBER server_time client_time
            server_ack_time now).calculate_latency with
        | some t => .reported t
        | none => .panicked
      else .panicked
    | _ => .logged

/-- One readiness outcome of `socket.recv()` inside the `tokio::select!` of
`handle_socket` (bandwidth_server/src/main.rs:133-153). -/
inductive SocketRecv where
  | binary (bytes : List Nat)
  | recvError
  | disconnected
  | nonBinary
deriving DecidableEq

/-- One readiness outcome of `rx.recv()` on the outbound queue
(bandwidth_server/src/main.rs:155-164). -/
inductive QueueRecv where
  | item (bytes : List Nat)
  | closed
deriving DecidableEq

/-- Which arm of the `tokio::select!` fired on a given loop iteration. -/
inductive SelectArm where
  | socket (r : SocketRecv)
  | queue (q : QueueRecv)
deriving DecidableEq

/-- Whether one iteration of the `handle_socket` dispatch loop
(bandwidth_server/src/main.rs:131-167) executes `break`.  Transcribed arm by
arm from the source; note the `Some(Err(e))` arm only logs — its `break` is
commented out (`//break;`, line 143). -/
def loopIterationBreaks : SelectArm → Bool
  | .socket (.binary _) => false
  | .socket .recvError => false
  | .socket .disconnected => true
  | .socket .nonBinary => true
  | .queue (.item _) => false
  | .queue .closed => true

/-- The `ConnectionStatus` enum of the wasm client. -/
inductive ConnectionStatus where
  | New
  | Connected
deriving DecidableEq

/-- The `WebSocketError` enum of the wasm client (wasm_client/src/lib.rs:77-87). -/
inductive WebSocketError where
  | NoURL
  | AlreadyConnected
  | AlreadyExists
  | CreationError
deriving DecidableEq

/-- The `Conduit` connection object (wasm_client/src/lib.rs:96-100).  The
opaque `web_sys::WebSocket` handle is embedded as `Option Unit`. -/
structure Conduit where
  status : ConnectionStatus
  socket : Option Unit
  url : String

/-- `Conduit::connect` (wasm_client/src/lib.rs:111-199).  `newResult` is the
outcome of the external `WebSocket::new(&self.url)` call (`none` = creation
failure).  The precondition chain is transcribed in source order; on success
the handle is stored and the four lifecycle callbacks are registered on the
socket (side effects on the socket object, not on the `Conduit` state);
`status` is never written. -/
def Conduit.connect (c : Conduit) (newResult : Option Unit) :
    Except WebSocketError Conduit :=
  if c.url.isEmpty then .error .NoURL
  else if c.status ≠ .New then .error .AlreadyConnected
  else if c.socket.isSome then .error .AlreadyExists
  else
    match newResult with
    | none => .error .CreationError
    | some sock => .ok { c with socket := some sock }

/-! ### Byte-string lemmas -/

/-- `natToBytesBE` always produces exactly `k` bytes. -/
theorem natToBytesBE_length (k n : Nat) : (natToBytesBE k n).length = k := by
  induction k generalizing n with
  | zero => rfl
  | succ k ih => simp [natToBytesBE, ih]

theorem fromBeBytes_append_singleton (xs : List Nat) (b : Nat) :
    fromBeBytes (xs ++ [b]) = fromBeBytes xs * 256 + b := by
  simp [fromBeBytes, List.foldl_append]

/-- Reading back a big-endian encoding recovers the value, provided it fits
in the encoded width. -/
theorem fromBe_natToBytesBE (k n : Nat) (h : n < 256 ^ k) :
    fromBeBytes (natToBytesBE k n) = n := by
  induction k generalizing n with
  | zero =>
    simp [natToBytesBE, fromBeBytes]
    omega
  | succ k ih =>
    have hdiv : n / 256 < 256 ^ k := by
      rw [pow_succ] at h
      omega
    rw [natToBytesBE, fromBeBytes_append_singleton, ih _ hdiv]
    omega

/-- A field read at offset `0` of an encoded chunk followed by anything. -/
theorem readBeBytes_front (mid post : List Nat) (b : Nat)
    (hmid : mid.length = b) :
    readBeBytes (mid ++ post) 0 b = .ok (fromBeBytes mid) := by
  have hb : 0 ≤ b ∧ b ≤ (mid ++ post).length := by
    simp [List.length_append]
    omega
  rw [readBeBytes, rustSlice, if_pos hb]
  simp only [List.drop_zero, Nat.sub_zero]
  rw [List.take_left' hmid, tryIntoArray, if_pos hmid]

/-- A field read of a whole buffer. -/
theorem readBeBytes_all (mid : List Nat) (b : Nat) (hmid : mid.length = b) :
    readBeBytes mid 0 b = .ok (fromBeBytes mid) := by
  have h := readBeBytes_front mid [] b hmid
  rwa [List.append_nil] at h

/-- A field read past a leading chunk ignores that chunk. -/
theorem readBeBytes_skip (pre rest : List Nat) (a b : Nat) :
    readBeBytes (pre ++ rest) (pre.length + a) (pre.length + b) =
      readBeBytes rest a b := by
  have hlen : (pre ++ rest).length = pre.length + rest.length :=
    List.length_append _ _
  by_cases h : a ≤ b ∧ b ≤ rest.length
  · have h' : pre.length + a ≤ pre.length + b ∧
        pre.length + b ≤ (pre ++ rest).length := by
      rw [hlen]; omega
    rw [readBeBytes, rustSlice, if_pos h', readBeBytes, rustSlice, if_pos h]
    rw [List.drop_append]
    have hsub : pre.length + b - (pre.length + a) = b - a := by omega
    rw [hsub]
  · have h' : ¬(pre.length + a ≤ pre.length + b ∧
        pre.length + b ≤ (pre ++ rest).length) := by
      rw [hlen]; omega
    rw [readBeBytes, rustSlice, if_neg h', readBeBytes, rustSlice, if_neg h]

/-- `readBeBytes_skip` specialised to a `natToBytesBE` chunk, so the skipped
length appears as a literal. -/
theorem natToBytesBE_skip (k v a b : Nat) (rest : List Nat) :
    readBeBytes (natToBytesBE k v ++ rest) (k + a) (k + b) =
      readBeBytes rest a b := by
  have h := readBeBytes_skip (natToBytesBE k v) rest a b
  rwa [natToBytesBE_length] at h

/-! ### C1 — encode/decode round trip -/

/-- C1 (amended): for every `LatencyTest` value `m` (fields within their
`u16`/`u128` machine ranges) whose `magic` field equals `MAGIC_NUMBER`,
decoding the encoding of `m` yields `m` again.  The restriction to
`magic = MAGIC_NUMBER` is forced: `encode` writes the message's own magic
field and `decode` rejects anything but `MAGIC_NUMBER`
(see `decode_encode_roundtrip_cex`). -/
theorem decode_encode_roundtrip (m : LatencyTest) (hwf : m.wf)
    (hm : m.magic = MAGIC_NUMBER) :
    LatencyTest.decode m.encode = .ok m := by
  have hpow : (2 : Nat) ^ 128 = 256 ^ 16 := by norm_num
  cases m with
  | InitialRequest magic =>
    simp only [LatencyTest.magic] at hm
    subst hm
    have hbytes : (LatencyTest.InitialRequest MAGIC_NUMBER).encode =
        natToBytesBE 2 MAGIC_NUMBER ++ natToBytesBE 2 1 := by
      simp [LatencyTest.encode, SIZE_U16]
    have r0 : readBeBytes (LatencyTest.InitialRequest MAGIC_NUMBER).encode
        0 SIZE_U16 = .ok MAGIC_NUMBER := by
      rw [hbytes]
      show readBeBytes _ 0 2 = _
      rw [readBeBytes_front _ _ 2 (natToBytesBE_length 2 MAGIC_NUMBER),
        fromBe_natToBytesBE 2 MAGIC_NUMBER (by norm_num [MAGIC_NUMBER])]
    have r1 : readBeBytes (LatencyTest.InitialRequest MAGIC_NUMBER).encode
        SIZE_U16 HEADER_SIZE = .ok 1 := by
      rw [hbytes]
      show readBeBytes _ (2 + 0) (2 + 2) = _
      rw [natToBytesBE_skip,
        readBeBytes_all _ 2 (natToBytesBE_length 2 1),
        fromBe_natToBytesBE 2 1 (by norm_num)]
    generalize (LatencyTest.InitialRequest MAGIC_NUMBER).encode = E at r0 r1 ⊢
    unfold LatencyTest.decode
    simp [bindRead, r0, r1]
  | FirstReply magic st =>
    simp only [LatencyTest.magic] at hm
    subst hm
    simp only [LatencyTest.wf] at hwf
    obtain ⟨-, h1⟩ := hwf
    rw [hpow] at h1
    have hbytes : (LatencyTest.FirstReply MAGIC_NUMBER st).encode =
        natToBytesBE 2 MAGIC_NUMBER ++ (natToBytesBE 2 2 ++
        natToBytesBE 16 st) := by
      simp [LatencyTest.encode, SIZE_U16, SIZE_U128, List.append_assoc]
    have r0 : readBeBytes (LatencyTest.FirstReply MAGIC_NUMBER st).encode
        0 SIZE_U16 = .ok MAGIC_NUMBER := by
      rw [hbytes]
      show readBeBytes _ 0 2 = _
      rw [readBeBytes_front _ _ 2 (natToBytesBE_length 2 MAGIC_NUMBER),
        fromBe_natToBytesBE 2 MAGIC_NUMBER (by norm_num [MAGIC_NUMBER])]
    have r1 : readBeBytes (LatencyTest.FirstReply MAGIC_NUMBER st).encode
        SIZE_U16 HEADER_SIZE = .ok 2 := by
      rw [hbytes]
      show readBeBytes _ (2 + 0) (2 + 2) = _
      rw [natToBytesBE_skip,
        readBeBytes_front _ _ 2 (natToBytesBE_length 2 2),
        fromBe_natToBytesBE 2 2 (by norm_num)]
    have r2 : readBeBytes (LatencyTest.FirstReply MAGIC_NUMBER st).encode
        HEADER_SIZE (HEADER_SIZE + SIZE_U128) = .ok st := by
      rw [hbytes]
      show readBeBytes _ (2 + 2) (2 + 18) = _
      rw [natToBytesBE_skip]
      show readBeBytes _ (2 + 0) (2 + 16) = _
      rw [natToBytesBE_skip,
        readBeBytes_all _ 16 (natToBytesBE_length 16 st),
        fromBe_natToBytesBE 16 st h1]
    generalize (LatencyTest.FirstReply MAGIC_NUMBER st).encode = E at r0 r1 r2 ⊢
    unfold LatencyTest.decode
    simp [bindRead, r0, r1, r2]
  | FirstResponse magic st ct =>
    simp only [LatencyTest.magic] at hm
    subst hm
    simp only [LatencyTest.wf] at hwf
    obtain ⟨-, h1, h2⟩ := hwf
    rw [hpow] at h1 h2
    have hbytes : (LatencyTest.FirstResponse MAGIC_NUMBER st ct).encode =
        natToBytesBE 2 MAGIC_NUMBER ++ (natToBytesBE 2 3 ++
        (natToBytesBE 16 st ++ natToBytesBE 16 ct)) := by
      simp [LatencyTest.encode, SIZE_U16, SIZE_U128, List.append_assoc]
    have r0 : readBeBytes (LatencyTest.FirstResponse MAGIC_NUMBER st ct).encode
        0 SIZE_U16 = .ok MAGIC_NUMBER := by
      rw [hbytes]
      show readBeBytes _ 0 2 = _
      rw [readBeBytes_front _ _ 2 (natToBytesBE_length 2 MAGIC_NUMBER),
        fromBe_natToBytesBE 2 MAGIC_NUMBER (by norm_num [MAGIC_NUMBER])]
    have r1 : readBeBytes (LatencyTest.FirstResponse MAGIC_NUMBER st ct).encode
        SIZE_U16 HEADER_SIZE = .ok 3 := by
      rw [hbytes]
      show readBeBytes _ (2 + 0) (2 + 2) = _
      rw [natToBytesBE_skip,
        readBeBytes_front _ _ 2 (natToBytesBE_length 2 3),
        fromBe_natToBytesBE 2 3 (by norm_num)]
    have r2 : readBeBytes (LatencyTest.FirstResponse MAGIC_NUMBER st ct).encode
        HEADER_SIZE (HEADER_SIZE + SIZE_U128) = .ok st := by
      rw [hbytes]
      show readBeBytes _ (2 + 2) (2 + 18) = _
      rw [natToBytesBE_skip]
      show readBeBytes _ (2 + 0) (2 + 16) = _
      rw [natToBytesBE_skip,
        readBeBytes_front _ _ 16 (natToBytesBE_length 16 st),
        fromBe_natToBytesBE 16 st h1]
    have r3 : readBeBytes (LatencyTest.FirstResponse MAGIC_NUMBER st ct).encode
        (HEADER_SIZE + SIZE_U128) (HEADER_SIZE + SIZE_U128 * 2) = .ok ct := by
      rw [hbytes]
      show readBeBytes _ (2 + 18) (2 + 34) = _
      rw [natToBytesBE_skip]
      show readBeBytes _ (2 + 16) (2 + 32) = _
      rw [natToBytesBE_skip]
      show readBeBytes _ (16 + 0) (16 + 16) = _
      rw [natToBytesBE_skip,
        readBeBytes_all _ 16 (natToBytesBE_length 16 ct),
        fromBe_natToBytesBE 16 ct h2]
    generalize (LatencyTest.FirstResponse MAGIC_NUMBER st ct).encode = E
      at r0 r1 r2 r3 ⊢
    unfold LatencyTest.decode
    simp [bindRead, r0, r1, r2, r3]
  | SecondReply magic st ct sat =>
    simp only [LatencyTest.magic] at hm
    subst hm
    simp only [LatencyTest.wf] at hwf
    obtain ⟨-, h1, h2, h3⟩ := hwf
    rw [hpow] at h1 h2 h3
    have hbytes : (LatencyTest.SecondReply MAGIC_NUMBER st ct sat).encode =
        natToBytesBE 2 MAGIC_NUMBER ++ (natToBytesBE 2 4 ++
        (natToBytesBE 16 st ++ (natToBytesBE 16 ct ++ natToBytesBE 16 sat))) := by
      simp [LatencyTest.encode, SIZE_U16, SIZE_U128, List.append_assoc]
    have r0 : readBeBytes (LatencyTest.SecondReply MAGIC_NUMBER st ct sat).encode
        0 SIZE_U16 = .ok MAGIC_NUMBER := by
      rw [hbytes]
      show readBeBytes _ 0 2 = _
      rw [readBeBytes_front _ _ 2 (natToBytesBE_length 2 MAGIC_NUMBER),
        fromBe_natToBytesBE 2 MAGIC_NUMBER (by norm_num [MAGIC_NUMBER])]
    have r1 : readBeBytes (LatencyTest.SecondReply MAGIC_NUMBER st ct sat).encode
        SIZE_U16 HEADER_SIZE = .ok 4 := by
      rw [hbytes]
      show readBeBytes _ (2 + 0) (2 + 2) = _
      rw [natToBytesBE_skip,
        readBeBytes_front _ _ 2 (natToBytesBE_length 2 4),
        fromBe_natToBytesBE 2 4 (by norm_num)]
    have r2 : readBeBytes (LatencyTest.SecondReply MAGIC_NUMBER st ct sat).encode
        HEADER_SIZE (HEADER_SIZE + SIZE_U128) = .ok st := by
      rw [hbytes]
      show readBeBytes _ (2 + 2) (2 + 18) = _
      rw [natToBytesBE_skip]
      show readBeBytes _ (2 + 0) (2 + 16) = _
      rw [natToBytesBE_skip,
        readBeBytes_front _ _ 16 (natToBytesBE_length 16 st),
        fromBe_natToBytesBE 16 st h1]
    have r3 : readBeBytes (LatencyTest.SecondReply MAGIC_NUMBER st ct sat).encode
        (HEADER_SIZE + SIZE_U128) (HEADER_SIZE + SIZE_U128 * 2) = .ok ct := by
      rw [hbytes]
      show readBeBytes _ (2 + 18) (2 + 34) = _
      rw [natToBytesBE_skip]
      show readBeBytes _ (2 + 16) (2 + 32) = _
      rw [natToBytesBE_skip]
      show readBeBytes _ (16 + 0) (16 + 16) = _
      rw [natToBytesBE_skip,
        readBeBytes_front _ _ 16 (natToBytesBE_length 16 ct),
        fromBe_natToBytesBE 16 ct h2]
    have r4 : readBeBytes (LatencyTest.SecondReply MAGIC_NUMBER st ct sat).encode
        (HEADER_SIZE + SIZE_U128 * 2) (HEADER_SIZE + SIZE_U128 * 3) = .ok sat := by
      rw [hbytes]
      show readBeBytes _ (2 + 34) (2 + 50) = _
      rw [natToBytesBE_skip]
      show readBeBytes _ (2 + 32) (2 + 48) = _
      rw [natToBytesBE_skip]
      show readBeBytes _ (16 + 16) (16 + 32) = _
      rw [natToBytesBE_skip]
      show readBeBytes _ (16 + 0) (16 + 16) = _
      rw [natToBytesBE_skip,
        readBeBytes_all _ 16 (natToBytesBE_length 16 sat),
        fromBe_natToBytesBE 16 sat h3]
    generalize (LatencyTest.SecondReply MAGIC_NUMBER st ct sat).encode = E
      at r0 r1 r2 r3 r4 ⊢
    unfold LatencyTest.decode
    simp [bindRead, r0, r1, r2, r3, r4]
  | Final magic st ct sat cat =>
    simp only [LatencyTest.magic] at hm
    subst hm
    simp only [LatencyTest.wf] at hwf
    obtain ⟨-, h1, h2, h3, h4⟩ := hwf
    rw [hpow] at h1 h2 h3 h4
    have hbytes : (LatencyTest.Final MAGIC_NUMBER st ct sat cat).encode =
        natToBytesBE 2 MAGIC_NUMBER ++ (natToBytesBE 2 5 ++ (natToBytesBE 16 st ++
        (natToBytesBE 16 ct ++ (natToBytesBE 16 sat ++ natToBytesBE 16 cat)))) := by
      simp [LatencyTest.encode, SIZE_U16, SIZE_U128, List.append_assoc]
    have r0 : readBeBytes (LatencyTest.Final MAGIC_NUMBER st ct sat cat).encode
        0 SIZE_U16 = .ok MAGIC_NUMBER := by
      rw [hbytes]
      show readBeBytes _ 0 2 = _
      rw [readBeBytes_front _ _ 2 (natToBytesBE_length 2 MAGIC_NUMBER),
        fromBe_natToBytesBE 2 MAGIC_NUMBER (by norm_num [MAGIC_NUMBER])]
    have r1 : readBeBytes (LatencyTest.Final MAGIC_NUMBER st ct sat cat).encode
        SIZE_U16 HEADER_SIZE = .ok 5 := by
      rw [hbytes]
      show readBeBytes _ (2 + 0) (2 + 2) = _
      rw [natToBytesBE_skip,
        readBeBytes_front _ _ 2 (natToBytesBE_length 2 5),
        fromBe_natToBytesBE 2 5 (by norm_num)]
    have r2 : readBeBytes (LatencyTest.Final MAGIC_NUMBER st ct sat cat).encode
        HEADER_SIZE (HEADER_SIZE + SIZE_U128) = .ok st := by
      rw [hbytes]
      show readBeBytes _ (2 + 2) (2 + 18) = _
      rw [natToBytesBE_skip]
      show readBeBytes _ (2 + 0) (2 + 16) = _
      rw [natToBytesBE_skip,
        readBeBytes_front _ _ 16 (natToBytesBE_length 16 st),
        fromBe_natToBytesBE 16 st h1]
    have r3 : readBeBytes (LatencyTest.Final MAGIC_NUMBER st ct sat cat).encode
        (HEADER_SIZE + SIZE_U128) (HEADER_SIZE + SIZE_U128 * 2) = .ok ct := by
      rw [hbytes]
      show readBeBytes _ (2 + 18) (2 + 34) = _
      rw [natToBytesBE_skip]
      show readBeBytes _ (2 + 16) (2 + 32) = _
      rw [natToBytesBE_skip]
      show readBeBytes _ (16 + 0) (16 + 16) = _
      rw [natToBytesBE_skip,
        readBeBytes_front _ _ 16 (natToBytesBE_length 16 ct),
        fromBe_natToBytesBE 16 ct h2]
    have r4 : readBeBytes (LatencyTest.Final MAGIC_NUMBER st ct sat cat).encode
        (HEADER_SIZE + SIZE_U128 * 2) (HEADER_SIZE + SIZE_U128 * 3) = .ok sat := by
      rw [hbytes]
      show readBeBytes _ (2 + 34) (2 + 50) = _
      rw [natToBytesBE_skip]
      show readBeBytes _ (2 + 32) (2 + 48) = _
      rw [natToBytesBE_skip]
      show readBeBytes _ (16 + 16) (16 + 32) = _
      rw [natToBytesBE_skip]
      show readBeBytes _ (16 + 0) (16 + 16) = _
      rw [natToBytesBE_skip,
        readBeBytes_front _ _ 16 (natToBytesBE_length 16 sat),
        fromBe_natToBytesBE 16 sat h3]
    have r5 : readBeBytes (LatencyTest.Final MAGIC_NUMBER st ct sat cat).encode
        (HEADER_SIZE + SIZE_U128 * 3) (HEADER_SIZE + SIZE_U128 * 4) = .ok cat := by
      rw [hbytes]
      show readBeBytes _ (2 + 50) (2 + 66) = _
      rw [natToBytesBE_skip]
      show readBeBytes _ (2 + 48) (2 + 64) = _
      rw [natToBytesBE_skip]
      show readBeBytes _ (16 + 32) (16 + 48) = _
      rw [natToBytesBE_skip]
      show readBeBytes _ (16 + 16) (16 + 32) = _
      rw [natToBytesBE_skip]
      show readBeBytes _ (16 + 0) (16 + 16) = _
      rw [natToBytesBE_skip,
        readBeBytes_all _ 16 (natToBytesBE_length 16 cat),
        fromBe_natToBytesBE 16 cat h4]
    generalize (LatencyTest.Final MAGIC_NUMBER st ct sat cat).encode = E
      at r0 r1 r2 r3 r4 r5 ⊢
    unfold LatencyTest.decode
    simp [bindRead, r0, r1, r2, r3, r4, r5]

/-- C1, counterexample to the claim as stated: the message type does not
constrain the magic field, and a message carrying a magic other than
`MAGIC_NUMBER` does not round-trip — `decode` rejects its own `encode`
output with `InvalidMagic`. -/
theorem decode_encode_roundtrip_cex :
    LatencyTest.decode ((LatencyTest.InitialRequest 0).encode) ≠
      .ok (.InitialRequest 0) := by decide

/-- C1, witness: the amended round-trip law applied to a concrete `Final`
message. -/
theorem decode_encode_roundtrip_witness :
    LatencyTest.decode ((LatencyTest.Final MAGIC_NUMBER 1 2 3 4).encode) =
      .ok (.Final MAGIC_NUMBER 1 2 3 4) :=
  decode_encode_roundtrip _ (by norm_num [LatencyTest.wf, MAGIC_NUMBER]) rfl

/-! ### C2 — truncated buffers -/

/-- C2: a buffer with the correct magic and a valid opcode but truncated
below the length its opcode requires does not produce a `Truncated` error —
the error enum has no such variant — nor any other `Err`: `decode` aborts on
the out-of-bounds slice index.  Shown at two failing inputs: a 4-byte
opcode-2 frame and a 19-byte opcode-2 frame (one byte short of the required
20). -/
theorem decode_truncated_panics :
    LatencyTest.decode [0xBE, 0x47, 0x00, 0x02] = .panicked ∧
    LatencyTest.decode [0xBE, 0x47, 0x00, 0x02,
      0, 0, 0, 0, 0, 0, 0, 0, 0, 0, 0, 0, 0, 0, 0] = .panicked := by
  decide

/-! ### C3 — calculate_latency under timestamp reversal -/

/-- C3: `calculate_latency` does not tolerate `server_ack_time < server_time`
— the plain `u128` subtraction underflows (an overflow abort under debug
assertions, a wrapped garbage value in release), contradicting the spec's
requirement of saturating/widened arithmetic.  Evaluated at the failing
input `Final{server_time = 1, everything else = 0}`. -/
theorem calculate_latency_underflow_panics :
    LatencyTest.calculate_latency (.Final MAGIC_NUMBER 1 0 0 0) = none := by
  decide

/-! ### C4 — calculator values for well-ordered timestamps -/

/-- C4: for a `Final` message with `server_time ≤ server_ack_time` and
`client_time ≤ client_ack_time`, `calculate_latency` returns
`(round_trip_estimate, server_processing_time, client_round_trip_time)` with
`server_processing_time = server_ack_time - server_time`,
`client_round_trip_time = client_ack_time - client_time` and
`round_trip_estimate = server_processing_time - 0.5 * client_round_trip_time`. -/
theorem calculate_latency_final (magic st ct sat cat : Nat)
    (h1 : st ≤ sat) (h2 : ct ≤ cat) :
    LatencyTest.calculate_latency (.Final magic st ct sat cat) =
      some (((sat : ℚ) - st) - ((cat : ℚ) - ct) * (0.5 : ℚ),
        (sat : ℚ) - st, (cat : ℚ) - ct) := by
  rw [LatencyTest.calculate_latency, checkedSub, if_pos h1, checkedSub, if_pos h2]
  push_cast [h1, h2]
  rfl

/-- C4, witness: the spec's own test vector `server_time = 1000,
server_ack_time = 1050, client_time = 900, client_ack_time = 1100` yields
`(-50, 50, 200)`. -/
theorem calculate_latency_final_witness :
    LatencyTest.calculate_latency (.Final MAGIC_NUMBER 1000 900 1050 1100) =
      some (-50, 50, 200) := by
  rw [calculate_latency_final MAGIC_NUMBER 1000 900 1050 1100
    (by norm_num) (by norm_num)]
  norm_num

/-! ### C8 — calculate_latency on non-Final variants -/

/-- C8: on each of the four non-`Final` variants, `calculate_latency` does
not abort — it takes the `_ => (0., 0., 0.)` fallback arm and returns the
zero triple. -/
theorem calculate_latency_non_final (magic st ct sat : Nat) :
    LatencyTest.calculate_latency (.InitialRequest magic) = some (0, 0, 0) ∧
    LatencyTest.calculate_latency (.FirstReply magic st) = some (0, 0, 0) ∧
    LatencyTest.calculate_latency (.FirstResponse magic st ct) = some (0, 0, 0) ∧
    LatencyTest.calculate_latency (.SecondReply magic st ct sat) = some (0, 0, 0) :=
  ⟨rfl, rfl, rfl, rfl⟩

/-! ### C9 — the Read error is unreachable -/

/-- A field read never fails at the `try_into` stage: when the slice exists
it has exactly the requested length. -/
theorem readBeBytes_ne_readErr (bytes : List Nat) (a b : Nat) :
    readBeBytes bytes a b ≠ .readErr := by
  rw [readBeBytes, rustSlice]
  by_cases h : a ≤ b ∧ b ≤ bytes.length
  · rw [if_pos h]
    have hlen : ((bytes.drop a).take (b - a)).length = b - a := by
      rw [List.length_take, List.length_drop]
      omega
    simp [tryIntoArray, hlen]
  · rw [if_neg h]
    simp

theorem bindRead_ne_Read (r : ReadResult) (f : Nat → DecodeOutcome)
    (hr : r ≠ .readErr) (hf : ∀ n, f n ≠ .err .Read) :
    bindRead r f ≠ .err .Read := by
  cases r with
  | ok n => exact hf n
  | readErr => exact absurd rfl hr
  | panicked => simp [bindRead]

/-- C9: `decode` never returns `Err(LatencyTestError::Read)`: every
`try_into` it performs acts on a slice whose length already equals the
target array length, so the `map_err(|_| Read)` handlers are dead code.  Its
only failure outcomes are `InvalidMagic`, `BadRequest`, and the
out-of-bounds slice abort. -/
theorem decode_never_Read (bytes : List Nat) :
    LatencyTest.decode bytes ≠ .err .Read := by
  unfold LatencyTest.decode
  refine bindRead_ne_Read _ _ (readBeBytes_ne_readErr _ _ _) fun magic => ?_
  by_cases hm : magic ≠ MAGIC_NUMBER
  · simp [hm]
  rw [if_neg hm]
  refine bindRead_ne_Read _ _ (readBeBytes_ne_readErr _ _ _) fun req => ?_
  by_cases e1 : req = 1
  · simp [e1]
  rw [if_neg e1]
  by_cases e2 : req = 2
  · rw [if_pos e2]
    refine bindRead_ne_Read _ _ (readBeBytes_ne_readErr _ _ _) fun a => ?_
    simp
  rw [if_neg e2]
  by_cases e3 : req = 3
  · rw [if_pos e3]
    refine bindRead_ne_Read _ _ (readBeBytes_ne_readErr _ _ _) fun a => ?_
    refine bindRead_ne_Read _ _ (readBeBytes_ne_readErr _ _ _) fun b => ?_
    simp
  rw [if_neg e3]
  by_cases e4 : req = 4
  · rw [if_pos e4]
    refine bindRead_ne_Read _ _ (readBeBytes_ne_readErr _ _ _) fun a => ?_
    refine bindRead_ne_Read _ _ (readBeBytes_ne_readErr _ _ _) fun b => ?_
    refine bindRead_ne_Read _ _ (readBeBytes_ne_readErr _ _ _) fun c => ?_
    simp
  rw [if_neg e4]
  by_cases e5 : req = 5
  · rw [if_pos e5]
    refine bindRead_ne_Read _ _ (readBeBytes_ne_readErr _ _ _) fun a => ?_
    refine bindRead_ne_Read _ _ (readBeBytes_ne_readErr _ _ _) fun b => ?_
    refine bindRead_ne_Read _ _ (readBeBytes_ne_readErr _ _ _) fun c => ?_
    refine bindRead_ne_Read _ _ (readBeBytes_ne_readErr _ _ _) fun d => ?_
    simp
  rw [if_neg e5]
  simp

/-! ### C5 — handlers abort on undecodable frames -/

/-- C5: both per-frame handlers call `.unwrap()` on the decode result, so a
frame that fails to decode aborts the handler instead of being handled
locally.  Evaluated at the frame `[0, 0, 0, 1]` (wrong magic, so `decode`
returns `Err(InvalidMagic)` and the unwrap aborts), with the send channel
healthy. -/
theorem handlers_panic_on_bad_frame :
    handle_socket_message [0, 0, 0, 1] 0 true = .panicked ∧
    conduit_on_message [0, 0, 0, 1] 0 true = .panicked := by
  decide

/-! ### C6 — dispatch-loop termination events -/

/-- C6: the dispatch loop does NOT exit when `socket.recv()` yields a fatal
I/O error — that arm only logs, its `break` being commented out — while it
does exit on clean disconnect, on a non-binary frame, and on a closed
outbound queue, and continues on binary frames and queued replies. -/
theorem loop_continues_on_recv_error :
    loopIterationBreaks (.socket .recvError) = false ∧
    loopIterationBreaks (.socket .disconnected) = true ∧
    loopIterationBreaks (.socket .nonBinary) = true ∧
    loopIterationBreaks (.queue .closed) = true ∧
    loopIterationBreaks (.socket (.binary [])) = false ∧
    loopIterationBreaks (.queue (.item [])) = false := by
  decide

/-! ### C7 — connect precondition chain -/

/-- C7: `Conduit::connect` checks its preconditions in source order — blank
URL, then non-`New` status, then an existing socket handle, then socket
creation — failing synchronously with the corresponding error, and on every
path the `status` field is not written: any successful return carries
`status = New`. -/
theorem connect_spec (c : Conduit) (r : Option Unit) :
    (c.url.isEmpty = true → c.connect r = .error .NoURL) ∧
    (c.url.isEmpty = false → c.status ≠ .New →
      c.connect r = .error .AlreadyConnected) ∧
    (c.url.isEmpty = false → c.status = .New → c.socket.isSome = true →
      c.connect r = .error .AlreadyExists) ∧
    (c.url.isEmpty = false → c.status = .New → c.socket = none → r = none →
      c.connect r = .error .CreationError) ∧
    (∀ c', c.connect r = .ok c' →
      c'.status = c.status ∧ c'.status = .New ∧ c'.socket.isSome = true) := by
  refine ⟨fun h => ?_, fun h hs => ?_, fun h hs hsock => ?_,
    fun h hs hsock hr => ?_, fun c' h => ?_⟩
  · rw [Conduit.connect.eq_def, if_pos h]
  · rw [Conduit.connect.eq_def, if_neg (by simp [h]), if_pos hs]
  · rw [Conduit.connect.eq_def, if_neg (by simp [h]), if_neg (by simp [hs]),
      if_pos hsock]
  · rw [Conduit.connect.eq_def, if_neg (by simp [h]), if_neg (by simp [hs]),
      if_neg (by simp [hsock]), hr]
  · rw [Conduit.connect.eq_def] at h
    by_cases h1 : c.url.isEmpty
    · rw [if_pos h1] at h
      exact absurd h (by simp)
    rw [if_neg h1] at h
    by_cases h2 : c.status ≠ ConnectionStatus.New
    · rw [if_pos h2] at h
      exact absurd h (by simp)
    rw [if_neg h2] at h
    by_cases h3 : c.socket.isSome
    · rw [if_pos h3] at h
      exact absurd h (by simp)
    rw [if_neg h3] at h
    cases r with
    | none => exact absurd h (by simp)
    | some s =>
      simp only [Except.ok.injEq] at h
      subst h
      refine ⟨rfl, ?_, rfl⟩
      simpa using h2

/-- C7, witness: the precondition chain exercised on concrete conduits —
a blank URL, a conduit already `Connected`, a held socket handle, a failed
socket creation, and a successful creation whose result still has
`status = New`. -/
theorem connect_spec_witness :
    Conduit.connect ⟨.New, none, ""⟩ none = .error .NoURL ∧
    Conduit.connect ⟨.Connected, none, "w"⟩ none = .error .AlreadyConnected ∧
    Conduit.connect ⟨.New, some (), "w"⟩ none = .error .AlreadyExists ∧
    Conduit.connect ⟨.New, none, "w"⟩ none = .error .CreationError ∧
    (Conduit.connect ⟨.New, none, "w"⟩ (some ()) = .ok ⟨.New, some (), "w"⟩ →
      (⟨.New, some (), "w"⟩ : Conduit).status = .New) := by
  refine ⟨(connect_spec ⟨.New, none, ""⟩ none).1 (by decide),
    (connect_spec ⟨.Connected, none, "w"⟩ none).2.1 (by decide) (by decide),
    (connect_spec ⟨.New, some (), "w"⟩ none).2.2.1 (by decide) rfl rfl,
    (connect_spec ⟨.New, none, "w"⟩ none).2.2.2.1 (by decide) rfl rfl rfl,
    fun h => ((connect_spec ⟨.New, none, "w"⟩ (some ())).2.2.2.2 _ h).2.1⟩

/-! ### C10 — the clock helper never fails -/

/-- C10: `unix_now_ms` is total over both outcomes of
`SystemTime::now().duration_since(UNIX_EPOCH)`: a pre-epoch clock
(`Err(SystemTimeError)`) yields `0`, and a normal clock yields the
millisecond count unchanged — so every timestamp placed into a handshake
message is a well-defined number. -/
theorem unix_now_ms_total (t : Nat) :
    unix_now_ms (.error ()) = 0 ∧ unix_now_ms (.ok t) = t :=
  ⟨rfl, rfl⟩

end WasmLatency
